import Mathlib

set_option maxRecDepth 2000

/-!
# A shallow embedding of `lightwood/mixers/neural.py`

This file embeds the control flow of the `Neural` mixer — the bounded trainer
`_max_fit`, the learning-rate sweep `_find_lr`, the loss selector
`_select_criterion`, the calibration pass `_final_tuning`, the dependency
handling of `__call__`, and the orchestration in `fit` — as executable Lean
definitions, and proves properties of the specification against them.

The torch/numpy numeric kernels (forward passes, gradients, `r2_score`) are
opaque to the control flow; every run of a loop is therefore determined by the
sequence of loss/error values and model snapshots those kernels produce, which
the embedding takes as explicit oracle parameters.  Python floats that the
control flow inspects only through comparisons and NaN/Inf tests are modelled
by `FVal` below (rationals plus the three special values).
-/

/-- A Python float as seen by the control flow of `neural.py`: NaN, one of the
two infinities, or a finite value (modelled as a rational). -/
inductive FVal where
  | nan : FVal
  | inf : FVal
  | ninf : FVal
  | fin : ℚ → FVal
deriving DecidableEq, Repr

namespace FVal

/-- `np.isnan`. -/
def isnan : FVal → Bool
  | nan => true
  | _ => false

/-- `np.isinf` (true for both infinities). -/
def isinf : FVal → Bool
  | inf => true
  | ninf => true
  | _ => false

/-- Python `a < b` on floats: NaN is incomparable to everything. -/
def flt : FVal → FVal → Bool
  | fin a, fin b => a < b
  | fin _, inf => true
  | ninf, fin _ => true
  | ninf, inf => true
  | _, _ => false

/-- Python `a > b` on floats. -/
def fgt (a b : FVal) : Bool := flt b a

/-- Python `a <= b` on floats (false whenever either side is NaN). -/
def fle (a b : FVal) : Bool := flt a b || (a == b && !a.isnan)

/-- Junk-defaulting projection to the rational value.  Only applied at program
points where the inspected value is provably finite. -/
def toQ : FVal → ℚ
  | fin q => q
  | _ => 0

end FVal

/-- The observations `_max_fit` makes of one epoch of its training loop: the
mean training loss `np.mean(running_losses)`, the dev error
`self._error(dev_dl, criterion)` (measured on the live model after this
epoch's gradient steps), the live model at the end of the epoch, and
`time.time() - started` at the end of the epoch. -/
structure EpochInfo (M : Type) where
  trainErr : FVal
  devErr : FVal
  model : M
  elapsed : ℚ

/-- The loop state of `_max_fit`.  `model` is the live `self.model`, mutated
in place by every epoch's gradient steps.  The Python local
`best_model = self.model` starts as an *alias* of that live object and is
only replaced by an independent `deepcopy` when a best-checkpoint update
fires; this is modelled by `bestSnapshot`: `none` while `best_model` still
aliases `self.model` (so reading it yields the current live model), `some m`
once a deep-copied snapshot `m` was recorded.  `epochsRun`, `considered` and
`stopped` are observational instrumentation: they record, respectively, how
many epochs the loop executed, the dev errors that reached the
best-checkpoint comparison (i.e. the errors of the epochs that were not
discarded by the NaN/Inf break), and whether the loop left its current epoch
through one of the `break` statements (as opposed to exhausting the epoch
budget).  The remaining fields are the Python locals of the same names. -/
structure MFState (M : Type) where
  model : M
  bestSnapshot : Option M
  epochsToBest : ℕ
  bestDevError : FVal
  runningErrors : List FVal
  epochsRun : ℕ
  considered : List ℚ
  stopped : Bool
deriving DecidableEq, Repr

/-- `np.average([running_errors[-i - 1] - running_errors[-i] for i in range(1, 5)],
weights=[(1 / 2)**i for i in range(1, 5)])`.  Negative Python indices address
the list from its end.  Every entry inspected here is finite — a NaN/Inf error
breaks out of the loop at its own epoch, before any later plateau check (see
`maxFitAux`) — so reading entries through `FVal.toQ` is exact. -/
def deltaMean (errs : List FVal) : ℚ :=
  let n := errs.length
  let d : ℕ → ℚ := fun i =>
    (errs.getD (n - i - 1) FVal.nan).toQ - (errs.getD (n - i) FVal.nan).toQ
  let w : ℕ → ℚ := fun i => (1 / 2) ^ i
  (w 1 * d 1 + w 2 * d 2 + w 3 * d 3 + w 4 * d 4) / (w 1 + w 2 + w 3 + w 4)

/-- The best-checkpoint update of `_max_fit` (lines 196-199): a strict
improvement over the tracked best replaces the best error, records a
`deepcopy` of the live model (`best_model` stops aliasing `self.model` from
this point on) and records the epoch index; the `considered` instrumentation
list logs every dev error that reaches this comparison. -/
def bestUpdate {M : Type} (info : EpochInfo M) (e : ℕ) (s : MFState M) :
    MFState M :=
  if s.bestDevError.fgt info.devErr then
    { s with bestDevError := info.devErr, bestSnapshot := some info.model,
             epochsToBest := e, considered := s.considered ++ [info.devErr.toQ] }
  else
    { s with considered := s.considered ++ [info.devErr.toQ] }

/-- The body of one epoch of `_max_fit` at epoch number `e`.  Mirrors the
Python control flow line by line: append this epoch's error to
`running_errors`; break on NaN/Inf in the training or dev error (discarding
the epoch: no best-checkpoint update); otherwise update the best checkpoint
when the dev error improves strictly; then run the plateau / time-budget /
loss-floor `if`/`elif` chain, in which the time-budget and loss-floor tests
are `elif` arms of the `len(running_errors) >= 5` test.  Every path on which
the Python loop executes `break` sets `stopped`.  The epoch's gradient steps
mutate the live model before any of the checks run, so `model` advances to
`info.model` even on a divergent epoch — only the best *snapshot* is
protected from a discarded epoch, not the live model `best_model` may still
alias. -/
def mfStep {M : Type} (epochs : ℕ → EpochInfo M) (stopAfter : ℚ) (e : ℕ)
    (s : MFState M) : MFState M :=
  let info := epochs e
  let s1 : MFState M :=
    { s with model := info.model,
             runningErrors := s.runningErrors ++ [info.devErr],
             epochsRun := s.epochsRun + 1 }
  if info.trainErr.isnan || info.devErr.isnan || info.trainErr.isinf
      || info.devErr.isinf then
    { s1 with stopped := true }
  else
    let s2 : MFState M := bestUpdate info e s1
    if 5 ≤ s2.runningErrors.length then
      if deltaMean s2.runningErrors ≤ 0 then { s2 with stopped := true } else s2
    else if stopAfter < info.elapsed then { s2 with stopped := true }
    else if info.devErr.flt (FVal.fin (1 / 10000))
        || info.trainErr.flt (FVal.fin (1 / 10000)) then { s2 with stopped := true }
    else s2

/-- The epoch loop of `_max_fit`, starting at epoch number `e` with `r`
epochs of budget left (initially `e = 1`, `r = return_model_after`): run the
epoch body, and re-enter the loop exactly when no `break` fired. -/
def maxFitAux {M : Type} (epochs : ℕ → EpochInfo M) (stopAfter : ℚ) :
    ℕ → ℕ → MFState M → MFState M
  | _, 0, s => s
  | e, r + 1, s =>
    if (mfStep epochs stopAfter e s).stopped then mfStep epochs stopAfter e s
    else maxFitAux epochs stopAfter (e + 1) r (mfStep epochs stopAfter e s)

/-- The initial loop state of `_max_fit`: `best_dev_error = pow(2, 32)`,
`epochs_to_best = 0`, and `best_model = self.model` — an alias of the live
model (`bestSnapshot = none`), not a copy of it. -/
def mfInit {M : Type} (initModel : M) : MFState M :=
  { model := initModel, bestSnapshot := none, epochsToBest := 0,
    bestDevError := FVal.fin (2 ^ 32),
    runningErrors := [], epochsRun := 0, considered := [], stopped := false }

/-- The final loop state of a `_max_fit` run. -/
def maxFitRun {M : Type} (initModel : M) (epochs : ℕ → EpochInfo M)
    (stopAfter : ℚ) (returnModelAfter : ℕ) : MFState M :=
  maxFitAux epochs stopAfter 1 returnModelAfter (mfInit initModel)

/-- The triple `_max_fit` returns. -/
structure MFResult (M : Type) where
  bestModel : M
  epochsToBest : ℕ
  bestDevError : FVal
deriving DecidableEq, Repr

/-- `_max_fit(train_dl, dev_dl, criterion, optimizer, scaler, stop_after,
return_model_after)`: run the epoch loop, then replace a NaN best error with
the sentinel `pow(2, 32)` before returning.  Reading the returned
`best_model` resolves the alias: if no best-update ever deep-copied a
snapshot, `best_model` is still the live `self.model`, as trained through
the last executed epoch. -/
def maxFit {M : Type} (initModel : M) (epochs : ℕ → EpochInfo M)
    (stopAfter : ℚ) (returnModelAfter : ℕ) : MFResult M :=
  let s := maxFitRun initModel epochs stopAfter returnModelAfter
  { bestModel := s.bestSnapshot.getD s.model, epochsToBest := s.epochsToBest,
    bestDevError := if s.bestDevError.isnan then FVal.fin (2 ^ 32) else s.bestDevError }

/-- The guard of the per-batch cadence check in `_find_lr` (line 139):
`if (i + 1) * epoch % 6:`.  `*` and `%` share precedence and associate left,
so this is `((i + 1) * epoch) % 6`, and Python's `if` treats a nonzero
remainder as true — the check fires exactly when `(i + 1) * epoch` is NOT
divisible by 6. -/
def cadenceFires (i epoch : ℕ) : Bool := (i + 1) * epoch % 6 != 0

/-- `np.mean` on a list of floats whose entries are finite; callers guard the
empty-list case (`np.mean([])` is NaN) by short-circuiting. -/
def npMean (l : List ℚ) : ℚ := l.sum / l.length

/-- First index of the minimum, the scan `np.argmin` performs. -/
def npArgminAux : List ℚ → ℕ → ℕ → ℚ → ℕ
  | [], _, bi, _ => bi
  | x :: xs, i, bi, bv =>
    if x < bv then npArgminAux xs (i + 1) i x else npArgminAux xs (i + 1) bi bv

/-- `np.argmin`: index of the first occurrence of the minimum; `none` models
the `ValueError` `np.argmin` raises on an empty sequence. -/
def npArgmin : List ℚ → Option ℕ
  | [] => none
  | x :: xs => some (npArgminAux xs 1 0 x)

/-- The loop state of `_find_lr`.  `checkpoints` is observational
instrumentation recording the `(epoch, i)` positions at which the cadence
check fired; the other fields are the Python locals of the same names.  (The
Python local `batches`, incremented per batch and reset at each checkpoint,
is never read and is omitted.) -/
structure LRState (M : Type) where
  runningLosses : List ℚ
  cumLoss : ℚ
  lrLog : List ℚ
  bestModel : M
  stop : Bool
  lr : ℚ
  checkpoints : List (ℕ × ℕ)
deriving DecidableEq, Repr

/-- One iteration of the inner batch loop of `_find_lr` at epoch `e`, batch
index `i`.  `lossAt e i` is the opaque `loss.item()` of that gradient step and
`modelAt e i` the live model right after it.  The learning-rate factor 1.4 is
modelled as the rational 7/5.  On a cadence hit the cumulative loss and the
current learning rate are recorded; while the trend still improves
(`len(running_losses) < 2 or np.mean(running_losses[:-1]) >
np.mean(running_losses)`, short-circuited so `np.mean([])` is never taken)
the rate is multiplied and the model snapshotted, otherwise the whole sweep
stops. -/
def lrBatch {M : Type} (lossAt : ℕ → ℕ → ℚ) (modelAt : ℕ → ℕ → M) (e i : ℕ)
    (s : LRState M) : LRState M :=
  if s.stop then s
  else
    let s0 := { s with cumLoss := s.cumLoss + lossAt e i }
    if cadenceFires i e then
      let lrNow := s0.lr
      let s1 := { s0 with runningLosses := s0.runningLosses ++ [s0.cumLoss],
                          lrLog := s0.lrLog ++ [lrNow],
                          cumLoss := 0,
                          checkpoints := s0.checkpoints ++ [(e, i)] }
      if s1.runningLosses.length < 2
          || npMean s1.runningLosses.dropLast > npMean s1.runningLosses then
        { s1 with lr := lrNow * (7 / 5), bestModel := modelAt e i }
      else
        { s1 with stop := true }
    else s0

/-- One epoch of `_find_lr`: `for i, (X, Y) in enumerate(dl)` over the `nb`
batches the loader yields, with the `if stop: break` at the top of the loop
body (equivalently: once `stop` is set every remaining iteration is a no-op,
which is how `lrBatch` treats it). -/
def lrEpoch {M : Type} (nb : ℕ) (lossAt : ℕ → ℕ → ℚ) (modelAt : ℕ → ℕ → M)
    (e : ℕ) (s : LRState M) : LRState M :=
  if s.stop then s
  else (List.range nb).foldl (fun t i => lrBatch lossAt modelAt e i t) s

/-- The initial state of `_find_lr`: empty histories, `cum_loss = 0`,
`best_model = self.model`, learning rate `self.lr` (`1e-4` when called from
`fit`). -/
def lrInit {M : Type} (lr0 : ℚ) (initModel : M) : LRState M :=
  { runningLosses := [], cumLoss := 0, lrLog := [], bestModel := initModel,
    stop := false, lr := lr0, checkpoints := [] }

/-- The state after the full `for epoch in range(1, 101)` sweep of
`_find_lr`. -/
def findLrState {M : Type} (nb : ℕ) (lossAt : ℕ → ℕ → ℚ) (modelAt : ℕ → ℕ → M)
    (lr0 : ℚ) (initModel : M) : LRState M :=
  (List.range 100).foldl (fun s e0 => lrEpoch nb lossAt modelAt (e0 + 1) s)
    (lrInit lr0 initModel)

/-- The message of the `ValueError` that `np.argmin` raises on an empty
sequence, which is how `_find_lr` fails when no checkpoint was recorded. -/
def argminEmptyMsg : String := "attempt to get argmin of an empty sequence"

/-- `_find_lr(dl)`: run the sweep, then return
`lr_log[np.argmin(running_losses)]` together with the best model snapshot;
an empty `running_losses` makes `np.argmin` raise. -/
def findLr {M : Type} (nb : ℕ) (lossAt : ℕ → ℕ → ℚ) (modelAt : ℕ → ℕ → M)
    (lr0 : ℚ) (initModel : M) : Except String (ℚ × M) :=
  match npArgmin (findLrState nb lossAt modelAt lr0 initModel).runningLosses with
  | none => .error argminEmptyMsg
  | some idx =>
    match (findLrState nb lossAt modelAt lr0 initModel).lrLog.get? idx with
    | none => .error "list index out of range"
    | some lr => .ok (lr, (findLrState nb lossAt modelAt lr0 initModel).bestModel)

/-- Modelled from the spec: the semantic-type vocabulary `lightwood.api.dtype`
is not part of the reviewed source.  Constructors cover the dtype constants
`neural.py` names, plus `other` standing for every remaining target type. -/
inductive DType where
  | integer
  | float
  | binary
  | categorical
  | tags
  | array
  | other
deriving DecidableEq, Repr

/-- The loss modules `_select_criterion` can build; `W` is the type of the
target encoder's `index_weights` vector, which the embedding treats as
opaque. -/
inductive Criterion (W : Type) where
  | transformCrossEntropy (weight : W)
  | bceWithLogits
  | l1
  | mse
deriving DecidableEq, Repr

/-- `_select_criterion()`.  One Python subtlety: the second test reads
`self.dtype_dict[self.target] in (dtype.tags)`, and `(dtype.tags)` is not a
tuple, so the test is substring containment in the string 'tags'; among the
dtype constants of the vocabulary only 'tags' itself is a substring of
'tags', so on that vocabulary the test is equality with `tags`. -/
def selectCriterion {W : Type} (dt : DType) (isTimeseries : Bool)
    (indexWeights : W) : Criterion W :=
  if dt = .categorical ∨ dt = .binary then .transformCrossEntropy indexWeights
  else if dt = .tags then .bceWithLogits
  else if (dt = .integer ∨ dt = .float ∨ dt = .array) ∧ isTimeseries = true then .l1
  else if dt = .integer ∨ dt = .float then .mse
  else .mse

/-- `_final_tuning(data_arr)`, as it acts on the target encoder's
`decode_log` flag.  The no-gradient evaluation passes, the decoding of
predictions and ground truth, and `sklearn.metrics.r2_score` are opaque
numeric kernels: `acc b` is the score `acc_dict[b]` measured with
`decode_log = b`.  The method runs only when `dtype_dict[target]` is
`integer` or `float`, and then ends with
`self.target_encoder.decode_log = acc_dict[True] > acc_dict[False]`; for any
other target type the flag is left unchanged.  Returns the final value of the
flag. -/
def finalTuning (dt : DType) (acc : Bool → ℚ) (decodeLog : Bool) : Bool :=
  if dt = .integer ∨ dt = .float then decide (acc true > acc false) else decodeLog

/-- The dependency-fetch loop of `__call__` (lines 303-305): starting from an
empty `kwargs`, each iteration of `for dep in self.target_encoder.dependencies`
rebinds `kwargs['dependency_data']` to a fresh single-entry dict
`{dep: ds.data_frame.iloc[idx][[dep]].values}` — here `fetch dep` stands for
that column lookup.  The result is the final value bound to the
`dependency_data` keyword (`none` when the encoder declares no dependencies,
in which case the key is never created). -/
def dependencyData {V : Type} (dependencies : List String) (fetch : String → V) :
    Option (List (String × V)) :=
  dependencies.foldl (fun _ dep => some [(dep, fetch dep)]) none

/-- The oracle data determining one `fit` run: the opaque numeric results of
the torch kernels consumed by `_find_lr`, by `_max_fit` (both inside `fit`
and inside `partial_fit`), and by `_final_tuning`.  `mkNet` stands for the
network construction of `_init_net` — a `DefaultNet`/`ArNet` sized from the
first sample of `ds_arr[0]`. -/
structure FitOracles (M R : Type) where
  mkNet : R → M
  lrLoss : ℕ → ℕ → ℚ
  lrModel : ℕ → ℕ → M
  epochInfo : ℕ → EpochInfo M
  pfEpochInfo : ℕ → EpochInfo M
  accR2 : Bool → ℚ

/-- The number of batches a `DataLoader` over `n` rows with batch size
`bs > 0` yields (the last batch may be short). -/
def numBatches (n bs : ℕ) : ℕ := (n + bs - 1) / bs

/-- `_init_net(ds_arr)`: builds the network from `len(ds_arr[0][0][0])` and
`len(ds_arr[0][0][1])`; indexing raises when `ds_arr` has no first sample. -/
def initNet {M R : Type} (mkNet : R → M) (dsArr : List (List R)) :
    Except String M :=
  match dsArr with
  | [] => .error "list index out of range"
  | [] :: _ => .error "list index out of range"
  | (r :: _) :: _ => .ok (mkNet r)

/-- What a `fit` call produces, beyond mutating `self`: the two sides of the
partition split, the derived batch size, the found learning rate, the final
model, the accumulated `epochs_to_best`, the final `decode_log` flag, and —
as observational instrumentation — whether `partial_fit` and `_final_tuning`
were invoked. -/
structure FitResult (M R : Type) where
  trainDsArr : List (List R)
  devDsArr : List (List R)
  batchSize : ℕ
  lr : ℚ
  model : M
  epochsToBest : ℕ
  ranPartialFit : Bool
  ranFinalTuning : Bool
  decodeLog : Bool
deriving DecidableEq, Repr

/-- `partial_fit(train_data, dev_data)`: one `_max_fit` run over the supplied
data, bounded by `max(1, int(self.epochs_to_best / 3))` epochs; it replaces
`self.model` with the returned best model and discards the other two
results. -/
def partialFit {M : Type} (model : M) (pfEpochInfo : ℕ → EpochInfo M)
    (stopAfter : ℚ) (epochsToBest : ℕ) : M :=
  (maxFit model pfEpochInfo stopAfter (max 1 (epochsToBest / 3))).bestModel

/-- `fit(ds_arr)` on a freshly constructed mixer (`self.epochs_to_best = 0`).
The partition split `ds_arr[0:int(len(ds_arr) * 0.9)]` is modelled with the
integer floor `len * 9 / 10`; for the list lengths appearing in the theorems
below the float product `len(ds_arr) * 0.9` truncates to the same value.
`stopAfter` is `self.stop_after`, `fitOnDev` is `self.fit_on_dev`, `dt` is
`dtype_dict[target]` and `decodeLog` the target encoder's flag on entry.
After the split, `fit` derives `batch_size = max(40, min(200,
int(len(con_train_ds) / 10)))`, builds the net, runs `_find_lr` on the
training loader, runs `_max_fit` with `return_model_after=20000`, accumulates
`epochs_to_best`, and only when `len(con_test_ds) > 0` runs the optional
`partial_fit` (behind `self.fit_on_dev`) followed by `_final_tuning`. -/
def fit {M R : Type} (o : FitOracles M R) (stopAfter : ℚ) (fitOnDev : Bool)
    (dt : DType) (decodeLog : Bool) (dsArr : List (List R)) :
    Except String (FitResult M R) :=
  let trainDsArr := dsArr.take (dsArr.length * 9 / 10)
  let devDsArr := dsArr.drop (dsArr.length * 9 / 10)
  let nTrain := (trainDsArr.map List.length).sum
  let nDev := (devDsArr.map List.length).sum
  let batchSize := max 40 (min 200 (nTrain / 10))
  match initNet o.mkNet dsArr with
  | .error msg => .error msg
  | .ok m0 =>
    match findLr (numBatches nTrain batchSize) o.lrLoss o.lrModel (1 / 10000) m0 with
    | .error msg => .error msg
    | .ok (lr, m1) =>
      let mfr := maxFit m1 o.epochInfo stopAfter 20000
      let epochsToBest := 0 + mfr.epochsToBest
      if 0 < nDev then
        let m3 := if fitOnDev then
            partialFit mfr.bestModel o.pfEpochInfo stopAfter epochsToBest
          else mfr.bestModel
        let dl := finalTuning dt o.accR2 decodeLog
        .ok { trainDsArr, devDsArr, batchSize, lr, model := m3, epochsToBest,
              ranPartialFit := fitOnDev, ranFinalTuning := true, decodeLog := dl }
      else
        .ok { trainDsArr, devDsArr, batchSize, lr, model := mfr.bestModel, epochsToBest,
              ranPartialFit := false, ranFinalTuning := false, decodeLog }

/-- The best-checkpoint bookkeeping invariant of `_max_fit`: the tracked best
dev error is the minimum of the sentinel `2^32` and all considered (i.e. not
discarded) epoch errors, and either `best_model` still aliases the live
model (no error beat the sentinel, so `epochs_to_best = 0` and the best
error is still the sentinel), or an independent snapshot was deep-copied
whose dev error — as measured by the dev-set pass, abstracted as `devOf` —
is exactly the tracked best error. -/
def MFInv {M : Type} (devOf : M → FVal) (s : MFState M) : Prop :=
  s.bestDevError = FVal.fin (s.considered.foldl min (2 ^ 32)) ∧
  ((s.bestSnapshot = none ∧ s.epochsToBest = 0
      ∧ s.bestDevError = FVal.fin (2 ^ 32))
    ∨ (∃ m, s.bestSnapshot = some m ∧ devOf m = s.bestDevError))

/-- Concrete run data for claim C2: dev errors 100, 90, 82, 76, 71, 70 (the
spec's Scenario D sequence scaled by 100 — strictly improving, so the plateau
check never fires), finite training losses, and a wall clock reading `e`
seconds at the end of epoch `e`. -/
def c2run : ℕ → EpochInfo ℕ := fun e =>
  { trainErr := FVal.fin 1,
    devErr := FVal.fin (([100, 90, 82, 76, 71, 70] : List ℚ).getD (e - 1) 70),
    model := e, elapsed := (e : ℚ) }

/-- Concrete run data for claim C3: a single-epoch run whose training mean
loss is NaN (e.g. a numeric overflow in the training pass) while the
measured dev error is 0.  The live model after epoch `e` is numbered `e`;
model 0 is the model on entry. -/
def c3run : ℕ → EpochInfo ℕ := fun e =>
  { trainErr := FVal.nan, devErr := FVal.fin 0, model := e, elapsed := 0 }

/-- The dev-set error function consistent with `c3run`: every model scores 0
on the dev set (each epoch error of `c3run` is the dev error of its model
snapshot). -/
def c3devOf : ℕ → FVal := fun _ => FVal.fin 0

/-- Concrete run data for the C4 counterexample: epoch 1 scores the finite
dev error `2^32 + 5` — too large to beat the sentinel, so no best-update
fires — and epoch 2 diverges (NaN dev error).  The live model after epoch
`e` is numbered `e`; model 0 is the model on entry. -/
def c4run : ℕ → EpochInfo ℕ := fun e =>
  { trainErr := FVal.fin 1,
    devErr := if e = 1 then FVal.fin (2 ^ 32 + 5) else FVal.nan,
    model := e, elapsed := 0 }

/-- Dev-set error function for the C3 witness run: the initial model 0 scores
100; the models after epochs 1, 2, 3 score 5, 3 and 4. -/
def c3wDevOf : ℕ → FVal := fun m =>
  FVal.fin (if m = 0 then 100 else if m = 1 then 5 else if m = 2 then 3 else 4)

/-- The C3 witness run: three epochs, dev errors 5, 3, 4, measured on the
models numbered by their epoch. -/
def c3wRun : ℕ → EpochInfo ℕ := fun e =>
  { trainErr := FVal.fin 1, devErr := c3wDevOf e, model := e, elapsed := 0 }

/-- A concrete oracle bundle for `fit` runs over row type `Unit`: constant
unit losses, models numbered by epoch, a dev pass that returns NaN (which is
what `np.mean` of an empty dev loader yields), and R² 0 under either decode
setting. -/
def oConst : FitOracles ℕ Unit where
  mkNet := fun _ => 0
  lrLoss := fun _ _ => 1
  lrModel := fun _ _ => 1
  epochInfo := fun e => { trainErr := FVal.fin 1, devErr := FVal.nan, model := e, elapsed := 0 }
  pfEpochInfo := fun e => { trainErr := FVal.fin 1, devErr := FVal.nan, model := e, elapsed := 0 }
  accR2 := fun _ => 0


/-- The C4 witness run: epoch 1 scores a finite dev error of 5, epoch 2
diverges (NaN dev error). -/
def c4wRun : ℕ → EpochInfo ℕ := fun e =>
  { trainErr := FVal.fin 1,
    devErr := if e = 1 then FVal.fin 5 else FVal.nan,
    model := e, elapsed := 0 }

/-! ## Helper lemmas -/

/-- A property preserved by every step of a fold is preserved by the fold. -/
theorem foldlPreserve {α σ : Type _} (f : σ → α → σ) (P : σ → Prop)
    (hf : ∀ s a, P s → P (f s a)) : ∀ (l : List α) (s : σ), P s → P (l.foldl f s)
  | [], _, h => h
  | a :: l, s, h => foldlPreserve f P hf l (f s a) (hf s a h)

/-- `lrBatch` never removes recorded checkpoints. -/
theorem lrBatch_losses_ne_nil {M : Type} (lossAt : ℕ → ℕ → ℚ)
    (modelAt : ℕ → ℕ → M) (e i : ℕ) (s : LRState M)
    (h : s.runningLosses ≠ []) :
    (lrBatch lossAt modelAt e i s).runningLosses ≠ [] := by
  unfold lrBatch
  split_ifs <;> try simp_all
  all_goals split <;> simp_all

/-- A batch at which the cadence check fires records a checkpoint. -/
theorem lrBatch_records {M : Type} (lossAt : ℕ → ℕ → ℚ) (modelAt : ℕ → ℕ → M)
    (e i : ℕ) (s : LRState M) (hs : s.stop = false)
    (hc : cadenceFires i e = true) :
    (lrBatch lossAt modelAt e i s).runningLosses ≠ [] := by
  unfold lrBatch
  split_ifs <;> try simp_all
  all_goals split <;> simp_all

/-- `lrEpoch` never removes recorded checkpoints. -/
theorem lrEpoch_losses_ne_nil {M : Type} (nb : ℕ) (lossAt : ℕ → ℕ → ℚ)
    (modelAt : ℕ → ℕ → M) (e : ℕ) (s : LRState M)
    (h : s.runningLosses ≠ []) :
    (lrEpoch nb lossAt modelAt e s).runningLosses ≠ [] := by
  unfold lrEpoch
  split
  · exact h
  · exact foldlPreserve _ (fun t => t.runningLosses ≠ [])
      (fun t i ht => lrBatch_losses_ne_nil lossAt modelAt e i t ht) _ s h

/-- The first epoch of a sweep over a non-empty loader records a checkpoint:
the cadence check fires already at its first batch (`(0 + 1) * 1 % 6 = 1`). -/
theorem lrEpoch_one_records {M : Type} (nb : ℕ) (lossAt : ℕ → ℕ → ℚ)
    (modelAt : ℕ → ℕ → M) (s : LRState M) (hs : s.stop = false)
    (hnb : 1 ≤ nb) :
    (lrEpoch nb lossAt modelAt 1 s).runningLosses ≠ [] := by
  obtain ⟨k, rfl⟩ : ∃ k, nb = k + 1 := ⟨nb - 1, by omega⟩
  unfold lrEpoch
  rw [hs]
  simp only [Bool.false_eq_true, if_false, List.range_succ_eq_map, List.foldl_cons]
  exact foldlPreserve _ (fun t => t.runningLosses ≠ [])
    (fun t i ht => lrBatch_losses_ne_nil lossAt modelAt 1 i t ht) _ _
    (lrBatch_records lossAt modelAt 1 0 s hs rfl)

/-- After a full sweep over a loader with at least one batch, at least one
checkpoint has been recorded. -/
theorem findLrState_losses_ne_nil {M : Type} (nb : ℕ) (lossAt : ℕ → ℕ → ℚ)
    (modelAt : ℕ → ℕ → M) (lr0 : ℚ) (m0 : M) (hnb : 1 ≤ nb) :
    (findLrState nb lossAt modelAt lr0 m0).runningLosses ≠ [] := by
  unfold findLrState
  have h100 : (List.range 100) = 0 :: (List.range 99).map Nat.succ :=
    List.range_succ_eq_map 99
  rw [h100]
  simp only [List.foldl_cons]
  exact foldlPreserve _ (fun t => t.runningLosses ≠ [])
    (fun t e0 ht => lrEpoch_losses_ne_nil nb lossAt modelAt (e0 + 1) t ht) _ _
    (lrEpoch_one_records nb lossAt modelAt (lrInit lr0 m0) rfl hnb)

/-- The index `npArgminAux` returns stays below `i + xs.length` whenever the
running best index is below `i`. -/
theorem npArgminAux_lt : ∀ (xs : List ℚ) (i bi : ℕ) (bv : ℚ), bi < i →
    npArgminAux xs i bi bv < i + xs.length
  | [], _, _, _, h => by simpa using h
  | x :: xs, i, bi, bv, h => by
    unfold npArgminAux
    split_ifs
    · have := npArgminAux_lt xs (i + 1) i x (Nat.lt_succ_self i)
      simpa [Nat.add_assoc, Nat.add_comm 1 xs.length] using this
    · have := npArgminAux_lt xs (i + 1) bi bv (Nat.lt_succ_of_lt h)
      simpa [Nat.add_assoc, Nat.add_comm 1 xs.length] using this

/-- On a non-empty list, `np.argmin` yields an index inside the list. -/
theorem npArgmin_some_lt (l : List ℚ) (h : l ≠ []) :
    ∃ i, npArgmin l = some i ∧ i < l.length := by
  match l with
  | [] => exact absurd rfl h
  | x :: xs =>
    refine ⟨npArgminAux xs 1 0 x, rfl, ?_⟩
    have := npArgminAux_lt xs 1 0 x (by omega)
    simp only [List.length_cons]
    omega

/-- `_find_lr` appends to `lr_log` and to `running_losses` in lock step. -/
theorem lrBatch_lengths {M : Type} (lossAt : ℕ → ℕ → ℚ) (modelAt : ℕ → ℕ → M)
    (e i : ℕ) (s : LRState M)
    (h : s.lrLog.length = s.runningLosses.length) :
    (lrBatch lossAt modelAt e i s).lrLog.length
      = (lrBatch lossAt modelAt e i s).runningLosses.length := by
  unfold lrBatch
  split_ifs <;> try simp_all
  all_goals split <;> simp_all

/-- `lrEpoch` keeps `lr_log` and `running_losses` the same length. -/
theorem lrEpoch_lengths {M : Type} (nb : ℕ) (lossAt : ℕ → ℕ → ℚ)
    (modelAt : ℕ → ℕ → M) (e : ℕ) (s : LRState M)
    (h : s.lrLog.length = s.runningLosses.length) :
    (lrEpoch nb lossAt modelAt e s).lrLog.length
      = (lrEpoch nb lossAt modelAt e s).runningLosses.length := by
  unfold lrEpoch
  split
  · exact h
  · exact foldlPreserve _ (fun t => t.lrLog.length = t.runningLosses.length)
      (fun t i ht => lrBatch_lengths lossAt modelAt e i t ht) _ s h

/-- After the sweep, `lr_log` and `running_losses` have the same length. -/
theorem findLrState_lengths {M : Type} (nb : ℕ) (lossAt : ℕ → ℕ → ℚ)
    (modelAt : ℕ → ℕ → M) (lr0 : ℚ) (m0 : M) :
    (findLrState nb lossAt modelAt lr0 m0).lrLog.length
      = (findLrState nb lossAt modelAt lr0 m0).runningLosses.length := by
  unfold findLrState
  exact foldlPreserve _ (fun t => t.lrLog.length = t.runningLosses.length)
    (fun t e0 ht => lrEpoch_lengths nb lossAt modelAt (e0 + 1) t ht)
    (List.range 100) (lrInit lr0 m0) rfl

/-- When at least one checkpoint was recorded, `_find_lr` returns a learning
rate and model. -/
theorem findLr_ok {M : Type} (nb : ℕ) (lossAt : ℕ → ℕ → ℚ)
    (modelAt : ℕ → ℕ → M) (lr0 : ℚ) (m0 : M) (hnb : 1 ≤ nb) :
    ∃ lr m, findLr nb lossAt modelAt lr0 m0 = .ok (lr, m) := by
  obtain ⟨i, hi, hlt⟩ := npArgmin_some_lt _
    (findLrState_losses_ne_nil nb lossAt modelAt lr0 m0 hnb)
  have hlen := findLrState_lengths nb lossAt modelAt lr0 m0
  have hget : ∃ lr, (findLrState nb lossAt modelAt lr0 m0).lrLog.get? i = some lr := by
    have : i < (findLrState nb lossAt modelAt lr0 m0).lrLog.length := by omega
    exact ⟨_, List.get?_eq_get this⟩
  obtain ⟨lr, hlr⟩ := hget
  refine ⟨lr, (findLrState nb lossAt modelAt lr0 m0).bestModel, ?_⟩
  unfold findLr
  simp only [hi, hlr]

/-- When no checkpoint was recorded, `_find_lr` fails with the `np.argmin`
`ValueError`. -/
theorem findLr_error {M : Type} (nb : ℕ) (lossAt : ℕ → ℕ → ℚ)
    (modelAt : ℕ → ℕ → M) (lr0 : ℚ) (m0 : M)
    (h : (findLrState nb lossAt modelAt lr0 m0).runningLosses = []) :
    findLr nb lossAt modelAt lr0 m0 = .error argminEmptyMsg := by
  unfold findLr
  rw [h]
  rfl

/-- An epoch over an empty loader leaves the sweep state unchanged. -/
theorem lrEpoch_zero {M : Type} (lossAt : ℕ → ℕ → ℚ) (modelAt : ℕ → ℕ → M)
    (e : ℕ) (s : LRState M) : lrEpoch 0 lossAt modelAt e s = s := by
  unfold lrEpoch
  split <;> rfl

/-- A sweep over an empty loader records nothing: all 100 epochs are empty. -/
theorem findLrState_zero {M : Type} (lossAt : ℕ → ℕ → ℚ) (modelAt : ℕ → ℕ → M)
    (lr0 : ℚ) (m0 : M) :
    findLrState 0 lossAt modelAt lr0 m0 = lrInit lr0 m0 := by
  unfold findLrState
  exact foldlPreserve _ (fun t => t = lrInit lr0 m0)
    (fun t e0 ht => by rw [lrEpoch_zero, ht]) _ _ rfl

/-- A float value that is neither NaN nor an infinity is finite. -/
theorem FVal.eq_fin {v : FVal} (h1 : v.isnan = false) (h2 : v.isinf = false) :
    ∃ q, v = FVal.fin q := by
  cases v with
  | fin q => exact ⟨q, rfl⟩
  | nan => simp [FVal.isnan] at h1
  | inf => simp [FVal.isinf] at h2
  | ninf => simp [FVal.isinf] at h2

/-- `<=` on finite floats agrees with the rational order. -/
theorem FVal.fle_fin {x y : ℚ} (h : x ≤ y) :
    FVal.fle (FVal.fin x) (FVal.fin y) = true := by
  rcases lt_or_eq_of_le h with h' | h'
  · simp [FVal.fle, FVal.flt, h']
  · subst h'
    simp [FVal.fle, FVal.flt, FVal.isnan]

/-- Folding `min` only ever lowers the accumulator. -/
theorem foldl_min_le_init (l : List ℚ) : ∀ a : ℚ, l.foldl min a ≤ a := by
  induction l with
  | nil => intro a; simp
  | cons x xs ih => intro a; exact le_trans (ih (min a x)) (min_le_left a x)

/-- The fold of `min` lies below every element of the list. -/
theorem foldl_min_le_mem {q : ℚ} :
    ∀ (l : List ℚ) (a : ℚ), q ∈ l → l.foldl min a ≤ q
  | [], _, h => absurd h (List.not_mem_nil q)
  | x :: xs, a, h => by
    rcases List.mem_cons.mp h with rfl | h'
    · exact le_trans (foldl_min_le_init xs (min a q)) (min_le_right a q)
    · exact foldl_min_le_mem xs (min a x) h'

/-- `bestUpdate` leaves the error history, the epoch counter and the break
flag alone, and appends the considered error. -/
theorem bestUpdate_fields {M : Type} (info : EpochInfo M) (e : ℕ)
    (s : MFState M) :
    (bestUpdate info e s).runningErrors = s.runningErrors ∧
    (bestUpdate info e s).epochsRun = s.epochsRun ∧
    (bestUpdate info e s).stopped = s.stopped ∧
    (bestUpdate info e s).considered = s.considered ++ [info.devErr.toQ] := by
  unfold bestUpdate
  split <;> simp

/-- On a divergent epoch `mfStep` advances the live model through the
epoch's gradient steps, records the error, counts the epoch, and sets the
break flag; the best checkpoint bookkeeping (`bestSnapshot`,
`epochs_to_best`, `best_dev_error`) is not touched. -/
theorem mfStep_divergent {M : Type} (epochs : ℕ → EpochInfo M) (sa : ℚ)
    (e : ℕ) (s : MFState M)
    (hdiv : ((epochs e).trainErr.isnan || (epochs e).devErr.isnan
      || (epochs e).trainErr.isinf || (epochs e).devErr.isinf) = true) :
    mfStep epochs sa e s =
      { s with model := (epochs e).model,
               runningErrors := s.runningErrors ++ [(epochs e).devErr],
               epochsRun := s.epochsRun + 1, stopped := true } := by
  unfold mfStep
  simp [hdiv]

/-- On a non-divergent epoch `mfStep` is the best-checkpoint update applied
to the state with the error recorded and the epoch counted, with some value
of the break flag (set when one of the `break` rules fired). -/
theorem mfStep_continue {M : Type} (epochs : ℕ → EpochInfo M) (sa : ℚ)
    (e : ℕ) (s : MFState M)
    (hval : ((epochs e).trainErr.isnan || (epochs e).devErr.isnan
      || (epochs e).trainErr.isinf || (epochs e).devErr.isinf) = false) :
    ∃ b : Bool, mfStep epochs sa e s =
      { bestUpdate (epochs e) e
          { s with model := (epochs e).model,
                   runningErrors := s.runningErrors ++ [(epochs e).devErr],
                   epochsRun := s.epochsRun + 1 } with stopped := b } := by
  unfold mfStep
  simp only [hval, Bool.false_eq_true, if_false]
  split_ifs
  · exact ⟨true, rfl⟩
  · exact ⟨_, rfl⟩
  · exact ⟨true, rfl⟩
  · exact ⟨true, rfl⟩
  · exact ⟨_, rfl⟩

/-- Decomposing a `_max_fit` epoch loop: running `r1 + r2` epochs of budget
is running `r1`, and — unless a `break` fired during those — continuing for
`r2` more epochs from where that run left off. -/
theorem maxFitAux_add {M : Type} (epochs : ℕ → EpochInfo M) (sa : ℚ) :
    ∀ (r1 r2 e : ℕ) (s : MFState M), s.stopped = false →
    maxFitAux epochs sa e (r1 + r2) s =
      (if (maxFitAux epochs sa e r1 s).stopped then maxFitAux epochs sa e r1 s
       else maxFitAux epochs sa (e + r1) r2 (maxFitAux epochs sa e r1 s)) := by
  intro r1
  induction r1 with
  | zero =>
    intro r2 e s hs
    simp only [Nat.zero_add, maxFitAux, Nat.add_zero]
    rw [hs]
    simp
  | succ n ih =>
    intro r2 e s hs
    have hadd : n + 1 + r2 = (n + r2) + 1 := by omega
    rw [hadd]
    by_cases hstop : (mfStep epochs sa e s).stopped = true
    · simp only [maxFitAux, hstop, if_true]
    · have hsf : (mfStep epochs sa e s).stopped = false := by
        simpa using hstop
      simp only [maxFitAux, hsf, Bool.false_eq_true, if_false]
      rw [ih r2 (e + 1) (mfStep epochs sa e s) hsf]
      have : e + 1 + n = e + (n + 1) := by omega
      rw [this]

/-- The best dev error tracked by `_max_fit` is finite after `bestUpdate`
whenever it was finite before and the incoming error is finite. -/
theorem bestUpdate_bestDev_fin {M : Type} (info : EpochInfo M) (e : ℕ)
    (s : MFState M) (hs : ∃ q, s.bestDevError = FVal.fin q)
    (hi : ∃ q, info.devErr = FVal.fin q) :
    ∃ q, (bestUpdate info e s).bestDevError = FVal.fin q := by
  unfold bestUpdate
  split
  · exact hi
  · exact hs

/-- The best dev error tracked by `_max_fit` stays finite through an epoch:
it is only ever replaced by an error that passed the NaN/Inf guard. -/
theorem mfStep_bestDev_fin {M : Type} (epochs : ℕ → EpochInfo M) (sa : ℚ)
    (e : ℕ) (s : MFState M) (hs : ∃ q, s.bestDevError = FVal.fin q) :
    ∃ q, (mfStep epochs sa e s).bestDevError = FVal.fin q := by
  by_cases hdiv : ((epochs e).trainErr.isnan || (epochs e).devErr.isnan
      || (epochs e).trainErr.isinf || (epochs e).devErr.isinf) = true
  · rw [mfStep_divergent epochs sa e s hdiv]
    exact hs
  · have hval : ((epochs e).trainErr.isnan || (epochs e).devErr.isnan
        || (epochs e).trainErr.isinf || (epochs e).devErr.isinf) = false := by
      simpa using hdiv
    obtain ⟨b, hb⟩ := mfStep_continue epochs sa e s hval
    rw [hb]
    have hcomp := hval
    simp only [Bool.or_eq_false_iff] at hcomp
    exact bestUpdate_bestDev_fin _ e _ hs
      (FVal.eq_fin hcomp.1.1.2 hcomp.2)

/-- The best dev error at the end of any `_max_fit` epoch loop is finite
whenever it starts finite (as it does, at the sentinel `2^32`); hence the
final `np.isnan(best_dev_error)` rewrite of `_max_fit` never fires. -/
theorem maxFitAux_bestDev_fin {M : Type} (epochs : ℕ → EpochInfo M) (sa : ℚ) :
    ∀ (r e : ℕ) (s : MFState M), (∃ q, s.bestDevError = FVal.fin q) →
    ∃ q, (maxFitAux epochs sa e r s).bestDevError = FVal.fin q := by
  intro r
  induction r with
  | zero => intro e s hs; exact hs
  | succ n ih =>
    intro e s hs
    simp only [maxFitAux]
    split
    · exact mfStep_bestDev_fin epochs sa e s hs
    · exact ih (e + 1) (mfStep epochs sa e s) (mfStep_bestDev_fin epochs sa e s hs)

/-- `bestUpdate` preserves the bookkeeping invariant when the incoming error
is finite and equals the dev-set error of the incoming model snapshot. -/
theorem bestUpdate_inv {M : Type} (devOf : M → FVal)
    (info : EpochInfo M) (e : ℕ) (s : MFState M)
    (hfin : ∃ q, info.devErr = FVal.fin q)
    (hdev : info.devErr = devOf info.model)
    (hinv : MFInv devOf s) : MFInv devOf (bestUpdate info e s) := by
  obtain ⟨q, hq⟩ := hfin
  obtain ⟨h1, h2⟩ := hinv
  unfold bestUpdate
  by_cases hf : s.bestDevError.fgt info.devErr = true
  · rw [if_pos hf]
    have hqm : q < s.considered.foldl min (2 ^ 32) := by
      rw [h1, hq] at hf
      simpa [FVal.fgt, FVal.flt] using hf
    constructor
    · show info.devErr = _
      simp only [List.foldl_append, List.foldl_cons, List.foldl_nil, hq,
        FVal.toQ]
      rw [min_eq_right (le_of_lt hqm)]
    · right
      exact ⟨info.model, rfl, hdev.symm⟩
  · rw [if_neg hf]
    have hqm : s.considered.foldl min (2 ^ 32) ≤ q := by
      rw [h1, hq] at hf
      simpa [FVal.fgt, FVal.flt] using hf
    constructor
    · show s.bestDevError = _
      simp only [List.foldl_append, List.foldl_cons, List.foldl_nil, hq,
        FVal.toQ]
      rw [min_eq_left hqm]
      exact h1
    · exact h2

/-- `mfStep` preserves the bookkeeping invariant. -/
theorem mfStep_inv {M : Type} (devOf : M → FVal)
    (epochs : ℕ → EpochInfo M) (sa : ℚ) (e : ℕ) (s : MFState M)
    (hdev : (epochs e).devErr = devOf ((epochs e).model))
    (hinv : MFInv devOf s) : MFInv devOf (mfStep epochs sa e s) := by
  by_cases hdiv : ((epochs e).trainErr.isnan || (epochs e).devErr.isnan
      || (epochs e).trainErr.isinf || (epochs e).devErr.isinf) = true
  · rw [mfStep_divergent epochs sa e s hdiv]
    exact hinv
  · have hval : ((epochs e).trainErr.isnan || (epochs e).devErr.isnan
        || (epochs e).trainErr.isinf || (epochs e).devErr.isinf) = false := by
      simpa using hdiv
    obtain ⟨b, hb⟩ := mfStep_continue epochs sa e s hval
    rw [hb]
    have hcomp := hval
    simp only [Bool.or_eq_false_iff] at hcomp
    have : MFInv devOf (bestUpdate (epochs e) e
        { s with model := (epochs e).model,
                 runningErrors := s.runningErrors ++ [(epochs e).devErr],
                 epochsRun := s.epochsRun + 1 }) :=
      bestUpdate_inv devOf (epochs e) e _
        (FVal.eq_fin hcomp.1.1.2 hcomp.2) hdev hinv
    exact this

/-- The bookkeeping invariant holds at the end of any `_max_fit` epoch loop
whose per-epoch dev errors are the dev-set errors of their model
snapshots. -/
theorem maxFitAux_inv {M : Type} (devOf : M → FVal)
    (epochs : ℕ → EpochInfo M) (sa : ℚ)
    (hdev : ∀ k, (epochs k).devErr = devOf ((epochs k).model)) :
    ∀ (r e : ℕ) (s : MFState M), MFInv devOf s →
      MFInv devOf (maxFitAux epochs sa e r s) := by
  intro r
  induction r with
  | zero => intro e s hs; exact hs
  | succ n ih =>
    intro e s hs
    simp only [maxFitAux]
    split
    · exact mfStep_inv devOf epochs sa e s (hdev e) hs
    · exact ih (e + 1) (mfStep epochs sa e s) (mfStep_inv devOf epochs sa e s (hdev e) hs)

/-! ## Claims -/

/-- Divergence at the current epoch ends the loop with the incoming state's
best fields unchanged (helper for C4). -/
theorem maxFitAux_divergent_step {M : Type} (epochs : ℕ → EpochInfo M)
    (sa : ℚ) (e r : ℕ) (s : MFState M)
    (hdiv : ((epochs e).trainErr.isnan || (epochs e).devErr.isnan
      || (epochs e).trainErr.isinf || (epochs e).devErr.isinf) = true) :
    maxFitAux epochs sa e (r + 1) s =
      { s with model := (epochs e).model,
               runningErrors := s.runningErrors ++ [(epochs e).devErr],
               epochsRun := s.epochsRun + 1, stopped := true } := by
  simp only [maxFitAux]
  rw [mfStep_divergent epochs sa e s hdiv]
  rfl

set_option maxRecDepth 4000 in
/-- C2 (counterexample): in this six-epoch run the wall clock reads 5 seconds
at the end of epoch 5, beyond the 4-second budget, and no earlier stopping
rule fired there (losses finite, and the exponentially-weighted mean delta
over the five recorded errors is strictly positive, so the plateau rule does
not trigger) — yet the trainer still starts and finishes epoch 6: the
time-budget check is unreachable once five epoch-errors exist. -/
theorem c2_counterexample :
    (maxFitRun 0 c2run 4 6).epochsRun = 6 ∧
    (4 : ℚ) < (c2run 5).elapsed ∧
    ((c2run 5).trainErr.isnan || (c2run 5).devErr.isnan
      || (c2run 5).trainErr.isinf || (c2run 5).devErr.isinf) = false ∧
    (maxFitRun 0 c2run 4 5).runningErrors
      = ([100, 90, 82, 76, 71] : List ℚ).map FVal.fin ∧
    0 < deltaMean (([100, 90, 82, 76, 71] : List ℚ).map FVal.fin) := by
  refine ⟨by with_unfolding_all rfl, by with_unfolding_all decide, rfl,
    by with_unfolding_all rfl, by with_unfolding_all decide⟩

/-- C2 (amended): the time-budget check of `_max_fit` is an `elif` arm of the
plateau guard and is therefore evaluated only at the end of an epoch at which
fewer than five epoch-errors have been recorded.  At such an epoch, when the
losses are finite and the elapsed wall-clock exceeds `stop_after`, the run
does stop at that epoch boundary: the loop breaks and no further epoch is
started, whatever epoch budget remains. -/
theorem c2_time_budget_stop {M : Type} (epochs : ℕ → EpochInfo M)
    (stopAfter : ℚ) (s : MFState M) (e r : ℕ)
    (hval : ((epochs e).trainErr.isnan || (epochs e).devErr.isnan
      || (epochs e).trainErr.isinf || (epochs e).devErr.isinf) = false)
    (hlen : s.runningErrors.length + 1 < 5)
    (htime : stopAfter < (epochs e).elapsed) :
    (maxFitAux epochs stopAfter e (r + 1) s).epochsRun = s.epochsRun + 1 ∧
    (maxFitAux epochs stopAfter e (r + 1) s).stopped = true := by
  have hm : (mfStep epochs stopAfter e s).epochsRun = s.epochsRun + 1 ∧
      (mfStep epochs stopAfter e s).stopped = true := by
    unfold mfStep
    simp only [hval, Bool.false_eq_true, if_false]
    have h5 : ¬ (5 ≤ (bestUpdate (epochs e) e
        { s with model := (epochs e).model,
                 runningErrors := s.runningErrors ++ [(epochs e).devErr],
                 epochsRun := s.epochsRun + 1 }).runningErrors.length) := by
      rw [(bestUpdate_fields _ _ _).1]
      simp only [List.length_append, List.length_cons, List.length_nil]
      omega
    rw [if_neg h5, if_pos htime]
    refine ⟨?_, rfl⟩
    show (bestUpdate (epochs e) e _).epochsRun = _
    rw [(bestUpdate_fields _ _ _).2.1]
  have hr : maxFitAux epochs stopAfter e (r + 1) s = mfStep epochs stopAfter e s := by
    simp only [maxFitAux, hm.2, if_true]
  rw [hr]
  exact hm

set_option maxRecDepth 4000 in
/-- C2 witness: at the first epoch of a run over `c2run` with a zero time
budget, the wall clock (1 second) exceeds the budget, fewer than five errors
exist, the losses are finite — and the run stops at that epoch boundary. -/
theorem c2_witness :
    (maxFitAux c2run 0 1 (2 + 1) (mfInit 0)).epochsRun = (mfInit (0 : ℕ)).epochsRun + 1 ∧
    (maxFitAux c2run 0 1 (2 + 1) (mfInit 0)).stopped = true :=
  c2_time_budget_stop c2run 0 (mfInit 0) 1 2 (by with_unfolding_all rfl)
    (by decide) (by with_unfolding_all decide)

/-- C4 (amended): for every bounded run that reaches epoch k with no break
fired in epochs 1..k-1 and whose training mean loss or dev error at epoch k
is NaN or infinite, `_max_fit` stops immediately without updating the best
checkpoint: the returned epochs-to-best and best dev error equal their
values as of epoch k-1, and the returned best model is the deep-copied
snapshot as of epoch k-1 whenever some update had fired by then —
but when no update ever fired, `best_model` is still an alias of the live
model, so the returned model is the live model as trained through the
divergent epoch k. -/
theorem c4_divergence_discards {M : Type} (m0 : M) (epochs : ℕ → EpochInfo M)
    (sa : ℚ) (N k : ℕ) (hk : 1 ≤ k) (hkN : k ≤ N)
    (hreach : (maxFitAux epochs sa 1 (k - 1) (mfInit m0)).stopped = false)
    (hdiv : ((epochs k).trainErr.isnan || (epochs k).devErr.isnan
      || (epochs k).trainErr.isinf || (epochs k).devErr.isinf) = true) :
    (maxFit m0 epochs sa N).epochsToBest
        = (maxFitAux epochs sa 1 (k - 1) (mfInit m0)).epochsToBest ∧
    (maxFit m0 epochs sa N).bestDevError
        = (maxFitAux epochs sa 1 (k - 1) (mfInit m0)).bestDevError ∧
    (maxFit m0 epochs sa N).bestModel
        = ((maxFitAux epochs sa 1 (k - 1) (mfInit m0)).bestSnapshot).getD
            ((epochs k).model) := by
  have hsplit := maxFitAux_add epochs sa (k - 1) (N - (k - 1)) 1 (mfInit m0) rfl
  have hN : (k - 1) + (N - (k - 1)) = N := by omega
  rw [hN] at hsplit
  rw [hreach] at hsplit
  simp only [Bool.false_eq_true, if_false] at hsplit
  have he : 1 + (k - 1) = k := by omega
  rw [he] at hsplit
  obtain ⟨r2, hr2⟩ : ∃ r2, N - (k - 1) = r2 + 1 := ⟨N - k, by omega⟩
  rw [hr2] at hsplit
  rw [maxFitAux_divergent_step epochs sa k r2
    (maxFitAux epochs sa 1 (k - 1) (mfInit m0)) hdiv] at hsplit
  obtain ⟨q, hq⟩ : ∃ q, (maxFitAux epochs sa 1 (k - 1) (mfInit m0)).bestDevError
      = FVal.fin q :=
    maxFitAux_bestDev_fin epochs sa (k - 1) 1 (mfInit m0) ⟨2 ^ 32, rfl⟩
  simp only [maxFit, maxFitRun]
  rw [hsplit]
  refine ⟨rfl, ?_, rfl⟩
  show (if (maxFitAux epochs sa 1 (k - 1) (mfInit m0)).bestDevError.isnan = true
      then FVal.fin (2 ^ 32)
      else (maxFitAux epochs sa 1 (k - 1) (mfInit m0)).bestDevError) = _
  rw [hq]
  simp [FVal.isnan]

set_option maxRecDepth 4000 in
/-- C4 (counterexample): a run that reaches epoch 2 with no best-update at
epoch 1 (its dev error `2^32 + 5` never beats the sentinel) and diverges at
epoch 2.  The best checkpoint values stay as of epoch 1 (epochs-to-best 0,
best error `2^32`), but the returned best model is the live model numbered 2
— containing the divergent epoch's gradient steps — whereas `best_model`'s
value as of epoch 1 (the alias resolved there) is model 1: the divergent
epoch is not discarded from the returned model. -/
theorem c4_counterexample :
    (maxFitAux c4run 100 1 1 (mfInit 0)).stopped = false ∧
    ((c4run 2).trainErr.isnan || (c4run 2).devErr.isnan
      || (c4run 2).trainErr.isinf || (c4run 2).devErr.isinf) = true ∧
    (maxFitAux c4run 100 1 1 (mfInit 0)).bestSnapshot = none ∧
    (maxFitAux c4run 100 1 1 (mfInit 0)).bestSnapshot.getD
        (maxFitAux c4run 100 1 1 (mfInit 0)).model = 1 ∧
    (maxFit 0 c4run 100 2).bestModel = 2 ∧
    (maxFit 0 c4run 100 2).epochsToBest = 0 ∧
    (maxFit 0 c4run 100 2).bestDevError = FVal.fin (2 ^ 32) := by
  refine ⟨?_, ?_, ?_, ?_, ?_, ?_, ?_⟩ <;> with_unfolding_all rfl

set_option maxRecDepth 4000 in
/-- C4 witness: a run over `c4wRun` (finite error 5 at epoch 1, so a
deep-copied snapshot exists, NaN at epoch 2) with budget 3 returns the best
checkpoint as of epoch 1. -/
theorem c4_witness :
    (maxFit 0 c4wRun 0 3).epochsToBest
        = (maxFitAux c4wRun 0 1 (2 - 1) (mfInit 0)).epochsToBest ∧
    (maxFit 0 c4wRun 0 3).bestDevError
        = (maxFitAux c4wRun 0 1 (2 - 1) (mfInit 0)).bestDevError ∧
    (maxFit 0 c4wRun 0 3).bestModel
        = ((maxFitAux c4wRun 0 1 (2 - 1) (mfInit 0)).bestSnapshot).getD
            ((c4wRun 2).model) :=
  c4_divergence_discards 0 c4wRun 0 3 2 (by omega) (by omega)
    (by with_unfolding_all rfl) (by with_unfolding_all rfl)

set_option maxRecDepth 4000 in
/-- C3 (counterexample): a one-epoch run whose training mean loss is NaN
(e.g. a numeric overflow in the training pass) while the measured dev error
is 0.  The NaN/Inf break fires at epoch 1 before any best-checkpoint update,
so `best_model` is still an alias of the live model: the run returns the
sentinel `2^32` as best dev error together with the live model as trained
through epoch 1, whose measured dev error is 0 — strictly below the
returned best error.  The claimed inequality "returned best-dev-error ≤
dev error of the returned best model" fails.  (The run data is consistent:
the epoch's recorded dev error is the dev error of its model snapshot under
`c3devOf`.) -/
theorem c3_counterexample :
    (c3run 1).devErr = c3devOf (c3run 1).model ∧
    (c3run 1).trainErr.isnan = true ∧
    (maxFitRun 0 c3run 100 1).bestSnapshot = none ∧
    (maxFit 0 c3run 100 1).bestModel = 1 ∧
    (maxFit 0 c3run 100 1).bestDevError = FVal.fin (2 ^ 32) ∧
    c3devOf 1 = FVal.fin 0 ∧
    FVal.fle (FVal.fin (2 ^ 32)) (c3devOf 1) = false ∧
    FVal.flt (c3devOf 1) (FVal.fin (2 ^ 32)) = true := by
  refine ⟨?_, ?_, ?_, ?_, ?_, ?_, ?_, ?_⟩ <;> with_unfolding_all rfl

/-- C3 (amended): in every `_max_fit` run whose per-epoch dev errors are the
dev-set errors of their model snapshots (`devOf`), the returned best dev
error equals the minimum of the `2^32` sentinel and all considered (i.e. not
discarded) epoch errors, and is ≤ every considered epoch error — in
particular ≤ the error of the final epoch whenever that epoch was not
discarded.  Moreover, either some epoch beat the sentinel and the returned
best model is an independent deep-copied snapshot whose dev-set error equals
the returned best error, or no best-update ever fired (`best_model` still
aliases the live model): then the returned model is the live final model,
`epochs_to_best` is 0 and the returned best error is the sentinel — in
which case the live model's own dev error can lie strictly below the
returned error when its epoch was discarded (the counterexample). -/
theorem c3_best_retention {M : Type} (m0 : M) (devOf : M → FVal)
    (epochs : ℕ → EpochInfo M) (sa : ℚ) (N : ℕ)
    (hdev : ∀ k, (epochs k).devErr = devOf ((epochs k).model)) :
    (maxFit m0 epochs sa N).bestDevError
        = FVal.fin ((maxFitRun m0 epochs sa N).considered.foldl min (2 ^ 32)) ∧
    (((maxFitRun m0 epochs sa N).bestSnapshot = none
        ∧ (maxFit m0 epochs sa N).bestModel = (maxFitRun m0 epochs sa N).model
        ∧ (maxFit m0 epochs sa N).epochsToBest = 0
        ∧ (maxFit m0 epochs sa N).bestDevError = FVal.fin (2 ^ 32))
      ∨ devOf (maxFit m0 epochs sa N).bestModel
          = (maxFit m0 epochs sa N).bestDevError) ∧
    (∀ q ∈ (maxFitRun m0 epochs sa N).considered,
      ((maxFit m0 epochs sa N).bestDevError).fle (FVal.fin q) = true) := by
  have hinv : MFInv devOf (maxFitRun m0 epochs sa N) :=
    maxFitAux_inv devOf epochs sa hdev N 1 (mfInit m0)
      ⟨rfl, Or.inl ⟨rfl, rfl, rfl⟩⟩
  obtain ⟨h1, h2⟩ := hinv
  have hmf : (maxFit m0 epochs sa N).bestDevError
      = (maxFitRun m0 epochs sa N).bestDevError := by
    simp only [maxFit]
    rw [h1]
    simp [FVal.isnan]
  refine ⟨?_, ?_, ?_⟩
  · rw [hmf]
    exact h1
  · rcases h2 with ⟨ha, hb, hc⟩ | ⟨m, hm, hr⟩
    · refine Or.inl ⟨ha, ?_, hb, by rw [hmf]; exact hc⟩
      show (maxFitRun m0 epochs sa N).bestSnapshot.getD
          (maxFitRun m0 epochs sa N).model = _
      rw [ha]
      rfl
    · right
      rw [hmf]
      show devOf ((maxFitRun m0 epochs sa N).bestSnapshot.getD
          (maxFitRun m0 epochs sa N).model) = _
      rw [hm, Option.getD_some]
      exact hr
  · intro q hq
    rw [hmf, h1]
    exact FVal.fle_fin (foldl_min_le_mem _ _ hq)

set_option maxRecDepth 4000 in
/-- C3 witness: a three-epoch run with dev errors 5, 3, 4 returns best error
3 — the minimum of the considered errors — via the deep-copied snapshot of
the epoch-2 model, whose dev-set error is that same 3. -/
theorem c3_witness :
    (maxFit 0 c3wRun 100 3).bestDevError
      = FVal.fin ((maxFitRun 0 c3wRun 100 3).considered.foldl min (2 ^ 32)) ∧
    (maxFitRun 0 c3wRun 100 3).considered = [5, 3, 4] ∧
    (maxFit 0 c3wRun 100 3).bestDevError = FVal.fin 3 ∧
    (maxFitRun 0 c3wRun 100 3).bestSnapshot = some 2 ∧
    (maxFit 0 c3wRun 100 3).bestModel = 2 :=
  ⟨(c3_best_retention 0 c3wDevOf c3wRun 100 3 (fun _ => rfl)).1,
   by with_unfolding_all rfl, by with_unfolding_all rfl,
   by with_unfolding_all rfl, by with_unfolding_all rfl⟩

set_option maxRecDepth 4000 in
/-- C1 (counterexample): the claim says the cadence check of `_find_lr` fires
exactly at the batches where `(batch_index + 1) * epoch_index` is divisible
by 6.  In fact, at epoch 1, batch 0 the counter is 1 — not divisible by 6 —
yet the check fires, and a concrete sweep over a one-batch loader records its
first cumulative-loss checkpoint exactly there; while at epoch 1, batch 5 the
counter is 6 — divisible by 6 — and the check does not fire. -/
theorem c1_counterexample :
    cadenceFires 0 1 = true ∧ ¬ (6 ∣ (0 + 1) * 1) ∧
    cadenceFires 5 1 = false ∧ (6 ∣ (5 + 1) * 1) ∧
    (findLrState 1 (fun _ _ => (1 : ℚ)) (fun _ _ => (0 : ℕ)) 1 0).checkpoints
      = [(1, 0), (2, 0)] :=
  ⟨rfl, by decide, rfl, by decide, by with_unfolding_all decide⟩

/-- C1 (amended): the per-batch cadence check of `_find_lr` — the guard
`cadenceFires`, which `lrBatch` evaluates at every executed batch and which
alone decides whether the running cumulative loss is recorded, the learning
rate possibly multiplied by 1.4, and the sweep possibly halted — fires
exactly at those batches where `(batch_index + 1) * epoch_index` is NOT
divisible by 6. -/
theorem c1_cadence_fires_iff (i epoch : ℕ) :
    cadenceFires i epoch = true ↔ ¬ (6 ∣ (i + 1) * epoch) := by
  unfold cadenceFires
  simp only [bne_iff_ne, ne_eq]
  omega

/-- C5: for every sweep in which no cumulative-loss checkpoint is ever
recorded, `_find_lr` raises (the `ValueError` of `np.argmin` on an empty
sequence) rather than returning a learning rate. -/
theorem c5_no_checkpoint_raises {M : Type} (nb : ℕ) (lossAt : ℕ → ℕ → ℚ)
    (modelAt : ℕ → ℕ → M) (lr0 : ℚ) (m0 : M)
    (h : (findLrState nb lossAt modelAt lr0 m0).runningLosses = []) :
    findLr nb lossAt modelAt lr0 m0 = .error argminEmptyMsg :=
  findLr_error nb lossAt modelAt lr0 m0 h

/-- C5 witness: a loader yielding zero batches records no checkpoint over the
whole 100-epoch sweep, and `_find_lr` fails on it. -/
theorem c5_witness :
    (findLrState 0 (fun _ _ => (1 : ℚ)) (fun _ _ => (0 : ℕ)) 1 0).runningLosses = [] ∧
    findLr 0 (fun _ _ => (1 : ℚ)) (fun _ _ => (0 : ℕ)) 1 0 = .error argminEmptyMsg :=
  ⟨by rw [findLrState_zero] ; rfl, c5_no_checkpoint_raises 0 _ _ 1 0 (by rw [findLrState_zero] ; rfl)⟩

/-- C6: `_select_criterion` implements the first-match-wins policy: weighted
cross-entropy carrying the target encoder's `index_weights` for a categorical
or binary target; binary cross-entropy with logits for a tags target; mean
absolute error for a numeric or array target of a time-series problem; mean
squared error for a plain numeric target; and mean squared error as the
fallback for every other target type (e.g. a non-time-series array target). -/
theorem c6_select_criterion_policy {W : Type} (w : W) :
    (∀ ts, selectCriterion DType.categorical ts w = .transformCrossEntropy w) ∧
    (∀ ts, selectCriterion DType.binary ts w = .transformCrossEntropy w) ∧
    (∀ ts, selectCriterion DType.tags ts w = .bceWithLogits) ∧
    (selectCriterion DType.integer true w = .l1 ∧
     selectCriterion DType.float true w = .l1 ∧
     selectCriterion DType.array true w = .l1) ∧
    (selectCriterion DType.integer false w = .mse ∧
     selectCriterion DType.float false w = .mse) ∧
    (∀ ts, selectCriterion DType.other ts w = .mse) ∧
    selectCriterion DType.array false w = .mse :=
  ⟨fun _ => rfl, fun _ => rfl, fun _ => rfl, ⟨rfl, rfl, rfl⟩, ⟨rfl, rfl⟩,
   fun _ => rfl, rfl⟩

/-- C7: `_final_tuning` only acts on integer/float targets, where it sets the
encoder's `decode_log` flag to the setting that achieved the higher R²
(`acc_dict[True] > acc_dict[False]`); for every other target type the flag is
left unchanged. -/
theorem c7_final_tuning_policy (acc : Bool → ℚ) (decodeLog : Bool) :
    (∀ dt, (dt = DType.integer ∨ dt = DType.float) →
      ((acc true > acc false → finalTuning dt acc decodeLog = true) ∧
       (acc false > acc true → finalTuning dt acc decodeLog = false))) ∧
    (∀ dt, dt ≠ DType.integer → dt ≠ DType.float →
      finalTuning dt acc decodeLog = decodeLog) := by
  constructor
  · rintro dt (rfl | rfl) <;>
      exact ⟨fun h => by simp [finalTuning, h],
             fun h => by simp [finalTuning]; exact le_of_lt h⟩
  · intro dt h1 h2
    simp [finalTuning, h1, h2]

/-- C7 witness (Scenario E): with R² 0.8 under `decode_log=True` and 0.75
under `decode_log=False`, a float target ends with `decode_log = True`; a
categorical target leaves the flag untouched. -/
theorem c7_witness :
    finalTuning DType.float (fun b => if b then 4 / 5 else 3 / 4) false = true ∧
    finalTuning DType.categorical (fun b => if b then 4 / 5 else 3 / 4) false = false :=
  ⟨((c7_final_tuning_policy _ false).1 DType.float (Or.inr rfl)).1 (by norm_num),
   (c7_final_tuning_policy _ false).2 DType.categorical (by decide) (by decide)⟩

/-- C9: the dependency loop of `__call__` rebinds `dependency_data` to a fresh
single-entry dict on every iteration, so with the two declared dependencies
'a' and 'b' the decode call receives only the value of 'b'; the value of 'a'
is absent from the passed dependency data, although the encoder declared it.
(With a single declared dependency the data is complete.) -/
theorem c9_last_dependency_only :
    dependencyData ["a", "b"] (fun dep => String.append dep "1") = some [("b", "b1")] ∧
    List.lookup "a" [("b", "b1")] = none ∧
    dependencyData ["a"] (fun dep => String.append dep "1") = some [("a", "a1")] :=
  ⟨rfl, rfl, rfl⟩

/-- A loader over at least one row yields at least one batch. -/
theorem numBatches_pos {n bs : ℕ} (hn : 1 ≤ n) (hbs : 0 < bs) :
    1 ≤ numBatches n bs := by
  unfold numBatches
  rw [Nat.le_div_iff_mul_le hbs]
  omega

/-- When the network builds but the training side of the split has no rows,
`fit` fails inside `_find_lr` with the `np.argmin` ValueError. -/
theorem fit_error_of_empty_train {M R : Type} (o : FitOracles M R) (sa : ℚ)
    (fod : Bool) (dt : DType) (dl : Bool) (dsArr : List (List R))
    (hinit : ∃ m, initNet o.mkNet dsArr = .ok m)
    (hnt : ((dsArr.take (dsArr.length * 9 / 10)).map List.length).sum = 0) :
    fit o sa fod dt dl dsArr = .error argminEmptyMsg := by
  obtain ⟨m, hm⟩ := hinit
  simp only [fit, hm]
  rw [hnt]
  rw [show numBatches 0 (max 40 (min 200 (0 / 10))) = 0 from by with_unfolding_all rfl]
  rw [findLr_error 0 o.lrLoss o.lrModel (1 / 10000) m (by rw [findLrState_zero] ; rfl)]

set_option maxRecDepth 4000 in
/-- C10 (counterexample): for a one-partition dataset the claim asserts that
the learning-rate finder and the bounded trainer iterate over the empty
training loader.  The bounded trainer never does: `_find_lr` raises the
`np.argmin` ValueError over the empty loader first and `fit` aborts with it,
before `_max_fit` is ever invoked. -/
theorem c10_counterexample :
    ([[()]] : List (List Unit)).take (([[()]] : List (List Unit)).length * 9 / 10) = [] ∧
    fit oConst 100 false DType.float false [[()]] = .error argminEmptyMsg :=
  ⟨rfl, by with_unfolding_all rfl⟩

/-- C10 (amended): a `fit` call on a list of exactly one (non-empty) encoded
partition assigns zero partitions to the training side (`int(1 * 0.9) = 0`)
and the single partition entirely to the validation side; the derived batch
size is still clamped up to 40, the training loader is empty (zero batches),
and the learning-rate sweep over it records nothing and raises, so `fit`
aborts with the `np.argmin` ValueError before reaching the bounded
trainer. -/
theorem c10_single_partition {M R : Type} (o : FitOracles M R) (sa : ℚ)
    (fod : Bool) (dt : DType) (dl : Bool) (p : List R) (hp : p ≠ []) :
    ([p] : List (List R)).take (([p] : List (List R)).length * 9 / 10) = [] ∧
    ([p] : List (List R)).drop (([p] : List (List R)).length * 9 / 10) = [p] ∧
    max 40 (min 200 ((((
      [p] : List (List R)).take (([p] : List (List R)).length * 9 / 10)).map
        List.length).sum / 10)) = 40 ∧
    numBatches 0 40 = 0 ∧
    fit o sa fod dt dl [p] = .error argminEmptyMsg := by
  obtain ⟨r, rs, rfl⟩ : ∃ r rs, p = r :: rs := by
    cases p with
    | nil => exact absurd rfl hp
    | cons r rs => exact ⟨r, rs, rfl⟩
  refine ⟨by with_unfolding_all rfl, by with_unfolding_all rfl,
    by with_unfolding_all rfl, rfl,
    fit_error_of_empty_train o sa fod dt dl [r :: rs] ⟨o.mkNet r, rfl⟩
      (by with_unfolding_all rfl)⟩

set_option maxRecDepth 4000 in
/-- C10 witness: the single-partition claim instantiated on a one-row
partition. -/
theorem c10_witness :
    fit oConst 100 true DType.float true [[()]] = .error argminEmptyMsg :=
  (c10_single_partition oConst 100 true DType.float true [()] (by decide)).2.2.2.2

/-- C8 (counterexample): a dataset list consisting of one empty partition
leaves the validation side of the 90/10 split empty (zero rows), yet `fit`
does not complete without raising: `_init_net` indexes the first sample of
`ds_arr[0]` and raises an IndexError before any training step. -/
theorem c8_counterexample :
    ((([[]] : List (List Unit)).drop (([[]] : List (List Unit)).length * 9 / 10)).map
      List.length).sum = 0 ∧
    fit oConst 100 true DType.float true [[]] = .error "list index out of range" :=
  ⟨rfl, by with_unfolding_all rfl⟩

/-- C8 (amended): for every `fit` call whose dataset yields a first sample
(so `_init_net` succeeds) and whose training side has at least one row, if
the validation side of the 90/10 partition split is empty (zero rows) then
`fit` completes without raising and skips both the optional partial-fit step
and the final-tuning step: neither `partial_fit` nor `_final_tuning` is
invoked. -/
theorem c8_empty_dev_skips {M R : Type} (o : FitOracles M R) (sa : ℚ)
    (fod : Bool) (dt : DType) (dl : Bool) (dsArr : List (List R))
    (hinit : ∃ m, initNet o.mkNet dsArr = .ok m)
    (htrain : 1 ≤ ((dsArr.take (dsArr.length * 9 / 10)).map List.length).sum)
    (hdev : ((dsArr.drop (dsArr.length * 9 / 10)).map List.length).sum = 0) :
    ∃ res, fit o sa fod dt dl dsArr = .ok res ∧
      res.ranPartialFit = false ∧ res.ranFinalTuning = false := by
  obtain ⟨m, hm⟩ := hinit
  simp only [fit, hm]
  obtain ⟨lr, m1, hfl⟩ := findLr_ok
    (numBatches ((dsArr.take (dsArr.length * 9 / 10)).map List.length).sum
      (max 40 (min 200 (((dsArr.take (dsArr.length * 9 / 10)).map List.length).sum / 10))))
    o.lrLoss o.lrModel (1 / 10000) m
    (numBatches_pos htrain (by omega))
  rw [hfl, hdev]
  simp only [Nat.lt_irrefl, if_false]
  exact ⟨_, rfl, rfl, rfl⟩

set_option maxRecDepth 4000 in
/-- C8 witness: two partitions — one row on the training side, an empty
partition on the validation side — make `fit` succeed with both the
partial-fit and final-tuning steps skipped, even with `fit_on_dev = True`. -/
theorem c8_witness :
    ∃ res, fit oConst 100 true DType.float true [[()], []] = .ok res ∧
      res.ranPartialFit = false ∧ res.ranFinalTuning = false :=
  c8_empty_dev_skips oConst 100 true DType.float true [[()], []]
    ⟨0, rfl⟩ (by decide) (by decide)
